import Mathlib

/-!
Shallow embedding of the `dehydrate-calls` library (`src/index.js`).

JavaScript values are modelled by `Value`.  Numbers are modelled as `Int`
(the behaviours under verification never depend on non-integer numbers).
Callables appearing in a capability tree are identified by a `FuncId`; their
behaviour (plain application and `new`-construction) is supplied by an `Env`,
since those callables are external capabilities supplied by the embedding
application, not code of this library.  `Value.func` carries the boolean
computed by the dependency `isClass` from `@tim-code/my-util` (true exactly
for class constructors).

Property access (`pathContext?.[key]`) is modelled by `getProp`.  Of the
JavaScript prototype chain only `Function.prototype.call` is modelled
(`FuncId.callMethod`), which the library's path walk can reach; builtin
methods inherited by plain objects, arrays and strings (`toString`,
`toUpperCase`, ...) are not modelled and read as `vUndefined`.  The walk
reads properties without binding a receiver, so when the resolver later
performs the plain call `pathContext(...args)` the target runs with
`this = undefined`: ordinary capability functions ignore `this` and are
interpreted by the environment, while a detached `Function.prototype.call`
throws the engine's TypeError (`callWalked`).

The source throws plain `Error(message)` values; errors are therefore
modelled as `Except String`.  The distinct message builders below are in
bijection with the error kinds named in the documentation:
  * `pathErrorMsg`       - capture-time navigation into a non-callable leaf;
  * `unresolvedPathMsg`  - hydration-time path not ending at a function;
  * `notAClassMsg`       - `_class` descriptor whose target is not a class;
  * `invocationModeMsg`  - captured class instantiation without `new`.
Engine-raised TypeErrors (calling a class without `new`, spreading or
iterating a non-iterable, destructuring `null`/`undefined`) are modelled by
the fixed `...TypeErrorMsg` strings.
-/

namespace DehydrateCalls

/-- Identity of a callable reachable through a capability tree.
`callMethod f` is the inherited `Function.prototype.call` method of the
function `f`; it is a plain (non-class) function. -/
inductive FuncId where
  | base (n : Nat)
  | callMethod (f : FuncId)
deriving Repr, DecidableEq

/-- JavaScript values, as far as the library inspects them.  `obj` keeps the
own enumerable string-keyed properties in insertion order (JavaScript object
keys are unique; association lists with distinct keys are the intended
image, and field lookup takes the first match). -/
inductive Value where
  | vUndefined
  | vNull
  | vBool (b : Bool)
  | vNum (n : Int)
  | vStr (s : String)
  | arr (elems : List Value)
  | obj (fields : List (String × Value))
  | func (fid : FuncId) (isCls : Bool)
deriving Repr

/-- Semantics of the external callables of a capability tree: `applyF` is a
plain call, `constructF` is a `new`-construction.  The library treats both
as black boxes. -/
structure Env where
  applyF : FuncId → List Value → Value
  constructF : FuncId → List Value → Value

/-- JavaScript truthiness: `undefined`, `null`, `false`, `0` and `""` are
falsy, everything else (including `[]` and `{}`) is truthy. -/
def truthy : Value → Bool
  | .vUndefined => false
  | .vNull => false
  | .vBool b => b
  | .vNum n => n != 0
  | .vStr s => !s.isEmpty
  | .arr _ => true
  | .obj _ => true
  | .func _ _ => true

/-- Own-property lookup on an object's field list; a missing property reads
as `undefined`. -/
def getField (fields : List (String × Value)) (k : String) : Value :=
  match fields with
  | [] => .vUndefined
  | (k', v) :: rest => if k' = k then v else getField rest k

/-- Whether an object's field list has a property named `k` at all. -/
def hasKey (fields : List (String × Value)) (k : String) : Bool :=
  fields.any (fun p => p.1 == k)

/-- The Hydration Engine's descriptor discrimination, `if (json._path)`:
the truthiness of the `_path` property. -/
def isDescriptorObj (fields : List (String × Value)) : Bool :=
  truthy (getField fields "_path")

/-- JavaScript property-key coercion `String(k)` as used by `v?.[key]`. -/
def propKey : Value → String
  | .vStr s => s
  | .vNum n => toString n
  | .vNull => "null"
  | .vUndefined => "undefined"
  | .vBool b => if b then "true" else "false"
  | _ => ""

/-- Element coercion performed by `Array.prototype.join` (which renders
`null` and `undefined` as the empty string). -/
def joinStr : Value → String
  | .vStr s => s
  | .vNum n => toString n
  | .vNull => ""
  | .vUndefined => ""
  | .vBool b => if b then "true" else "false"
  | _ => ""

/-- `_path.join(".")`, the dotted path used in error messages. -/
def jsJoinDot (keys : List Value) : String :=
  String.intercalate "." (keys.map joinStr)

/-- One step of property access `v?.[key]`.  Optional chaining turns access
on `null`/`undefined` into `undefined`.  Arrays expose `length` and their
indexed elements; functions expose the inherited `Function.prototype.call`. -/
def getProp (v : Value) (key : String) : Value :=
  match v with
  | .obj fields => getField fields key
  | .arr elems =>
      if key = "length" then .vNum elems.length
      else
        match key.toNat? with
        | some i => elems.getD i .vUndefined
        | none => .vUndefined
  | .func fid _ => if key = "call" then .func (.callMethod fid) false else .vUndefined
  | _ => .vUndefined

/-- The resolver's walk `for (const key of _path) pathContext = pathContext?.[key]`. -/
def walkPath (ctx : Value) (keys : List Value) : Value :=
  keys.foldl (fun acc k => getProp acc (propKey k)) ctx

/-- `typeof v === "function"`. -/
def isFunc : Value → Bool
  | .func _ _ => true
  | _ => false

/-- Message of the capture-time path error (`createCallCapturer`). -/
def pathErrorMsg (dotted : String) : String :=
  "context does not have function for path: " ++ dotted

/-- Message of the hydration-time unresolved-path error (`executeDehydrated`). -/
def unresolvedPathMsg (dotted : String) : String :=
  "context does not have a function at path: " ++ dotted

/-- Message of the hydration-time not-a-class error (`executeDehydrated`). -/
def notAClassMsg (dotted : String) : String :=
  "context does not have a class at path: " ++ dotted

/-- Message of the capture-time invocation-mode error: a captured class
instantiated without `new`. -/
def invocationModeMsg : String :=
  "captured class instantiations should also use 'new'"

/-- Modelled engine TypeError: an ES class constructor invoked as a plain
call (`pathContext(...args)` where `pathContext` is a class). -/
def classCallTypeErrorMsg : String :=
  "TypeError: class constructor cannot be invoked without 'new'"

/-- Modelled engine TypeError: spreading a non-iterable argument list. -/
def spreadTypeErrorMsg : String :=
  "TypeError: spread argument is not iterable"

/-- Modelled engine TypeError: `for...of` over a non-iterable `_path`. -/
def pathNotIterableMsg : String :=
  "TypeError: _path is not iterable"

/-- Modelled engine TypeError: destructuring `null`/`undefined`. -/
def destructureTypeErrorMsg : String :=
  "TypeError: cannot destructure null or undefined"

/-- Modelled engine TypeError: `new` applied to an arrow function. -/
def arrowNewTypeErrorMsg : String :=
  "TypeError: capturer is not a constructor"

/-- Modelled engine TypeError: `Function.prototype.call`, detached from its
receiver by the walk, is invoked as a plain call: its `this` is `undefined`,
which is not callable. -/
def callDetachedTypeErrorMsg : String :=
  "TypeError: Function.prototype.call invoked with a non-callable this"

/-- The plain call `pathContext(...args)` performed by the resolver.  The
walk `pathContext = pathContext?.[key]` reads properties without binding a
receiver, so the target is invoked with `this = undefined`.  A `base`
callable is an actual capability function of the tree, which does not use
`this` and is interpreted by the environment; the detached
`Function.prototype.call` however is exactly a function of its `this`, and
with `this = undefined` (not callable) the engine throws a TypeError. -/
def callWalked (env : Env) (fid : FuncId) (args : List Value) :
    Except String Value :=
  match fid with
  | .base n => .ok (env.applyF (.base n) args)
  | .callMethod _ => .error callDetachedTypeErrorMsg

theorem sizeOf_getField_lt_of_truthy {fields : List (String × Value)} {k : String}
    (h : truthy (getField fields k) = true) :
    sizeOf (getField fields k) < sizeOf fields := by
  induction fields with
  | nil => simp [getField, truthy] at h
  | cons p rest ih =>
    obtain ⟨k', v⟩ := p
    simp only [getField] at h ⊢
    by_cases hk : k' = k
    · rw [if_pos hk] at h ⊢
      simp only [List.cons.sizeOf_spec, Prod.mk.sizeOf_spec]
      omega
    · rw [if_neg hk] at h ⊢
      have := ih h
      simp only [List.cons.sizeOf_spec]
      omega

mutual

/-- The Hydration Engine (`hydrate` in `src/index.js`): arrays are rebuilt
element by element in order, objects with a truthy `_path` are delegated to
the Invocation Resolver, other objects are rebuilt key by key, and
everything else (primitives, `null`, `undefined`, functions) is returned
unchanged. -/
def hydrate (env : Env) (ctx : Value) (json : Value) : Except String Value :=
  match json with
  | .arr elems =>
      match hydrateList env ctx elems with
      | .ok rs => .ok (.arr rs)
      | .error e => .error e
  | .obj fields =>
      if isDescriptorObj fields then execFields env ctx fields
      else
        match hydrateFields env ctx fields with
        | .ok fs => .ok (.obj fs)
        | .error e => .error e
  | v => .ok v
termination_by sizeOf json
decreasing_by all_goals (simp_wf; try omega)

/-- The array loop of `hydrate`: hydrates each element in order, propagating
the first error. -/
def hydrateList (env : Env) (ctx : Value) (l : List Value) :
    Except String (List Value) :=
  match l with
  | [] => .ok []
  | e :: rest =>
      match hydrate env ctx e with
      | .error err => .error err
      | .ok r =>
          match hydrateList env ctx rest with
          | .error err => .error err
          | .ok rs => .ok (r :: rs)
termination_by sizeOf l
decreasing_by all_goals (simp_wf; try omega)

/-- The object loop of `hydrate`: hydrates each property value, keeping every
key in order. -/
def hydrateFields (env : Env) (ctx : Value) (l : List (String × Value)) :
    Except String (List (String × Value)) :=
  match l with
  | [] => .ok []
  | (k, v) :: rest =>
      match hydrate env ctx v with
      | .error err => .error err
      | .ok r =>
          match hydrateFields env ctx rest with
          | .error err => .error err
          | .ok rs => .ok ((k, r) :: rs)
termination_by sizeOf l
decreasing_by all_goals (simp_wf; try omega)

/-- The Invocation Resolver (`executeDehydrated` in `src/index.js`) applied
to the field list of a descriptor object: walk `_path`, then
  * if the target is not a function, throw the unresolved-path error;
  * if `_args` is falsy (in particular absent), return the target itself;
  * otherwise hydrate `_args`; with truthy `_class`, construct when the
    target is a class and throw the not-a-class error when it is not; with
    falsy `_class`, plain-call the target (an engine TypeError if the target
    is actually a class). -/
def execFields (env : Env) (ctx : Value) (fields : List (String × Value)) :
    Except String Value :=
  match getField fields "_path" with
  | .arr keys =>
      match walkPath ctx keys with
      | .func fid isCls =>
          if h : truthy (getField fields "_args") then
            match hydrate env ctx (getField fields "_args") with
            | .error err => .error err
            | .ok hargs =>
                if truthy (getField fields "_class") then
                  if isCls then
                    match hargs with
                    | .arr l => .ok (env.constructF fid l)
                    | _ => .error spreadTypeErrorMsg
                  else .error (notAClassMsg (jsJoinDot keys))
                else
                  match hargs with
                  | .arr l =>
                      if isCls then .error classCallTypeErrorMsg
                      else callWalked env fid l
                  | _ => .error spreadTypeErrorMsg
          else .ok (.func fid isCls)
      | _ => .error (unresolvedPathMsg (jsJoinDot keys))
  | _ => .error pathNotIterableMsg
termination_by sizeOf fields
decreasing_by
  all_goals simp_wf
  exact sizeOf_getField_lt_of_truthy (by assumption)

end

/-- `executeDehydrated(context, { _path, _args, _class })`: the exported
Invocation Resolver.  Destructuring `null`/`undefined` throws; on any other
non-object value every destructured field reads as `undefined`, so the
`for...of` walk over `_path` throws the iterability TypeError. -/
def executeDehydrated (env : Env) (ctx : Value) (d : Value) :
    Except String Value :=
  match d with
  | .obj fields => execFields env ctx fields
  | .vNull => .error destructureTypeErrorMsg
  | .vUndefined => .error destructureTypeErrorMsg
  | _ => .error pathNotIterableMsg

/-- Result of the capture Proxy's `get` trap (`createCallCapturer`):
navigating to a callable yields a capture function bound to the extended
path (still carrying whether the callable is a class); navigating to a
non-null object yields a nested capturer around that node; anything else
throws the capture-time path error. -/
inductive CapGet where
  | capturer (path : List String) (isCls : Bool)
  | nested (node : Value) (path : List String)
deriving Repr

/-- The `get` trap of `createCallCapturer(context, path)` for property
`key`. -/
def capturerGet (target : Value) (path : List String) (key : String) :
    Except String CapGet :=
  match getProp target key with
  | .func _ isCls => .ok (.capturer (path ++ [key]) isCls)
  | .arr elems => .ok (.nested (.arr elems) (path ++ [key]))
  | .obj fields => .ok (.nested (.obj fields) (path ++ [key]))
  | _ => .error (pathErrorMsg (String.intercalate "." (path ++ [key])))

/-- Invoking the capture function bound to `path`.  `usedNew` is whether the
language-level `new` operator was used (`new.target` in the source).  For a
captured class, plain-call mode throws the invocation-mode error; with
`new`, the descriptor additionally carries `_class: true`.  For a plain
callable the capturer is an arrow function, so `new` on it is an engine
TypeError. -/
def invokeCapturer (path : List String) (isCls : Bool) (usedNew : Bool)
    (args : List Value) : Except String Value :=
  if isCls then
    if usedNew then
      .ok (.obj [("_path", .arr (path.map .vStr)), ("_class", .vBool true),
                 ("_args", .arr args)])
    else .error invocationModeMsg
  else
    if usedNew then .error arrowNewTypeErrorMsg
    else .ok (.obj [("_path", .arr (path.map .vStr)), ("_args", .arr args)])

/-- The capture function's `toJSON`: the reference form `{_path}` with no
`_args` key. -/
def capturerToJSON (path : List String) : Value :=
  .obj [("_path", .arr (path.map .vStr))]

mutual

/-- No object anywhere in the payload has a `_path` property: the payload
embeds no Call Descriptor (not even a malformed one). -/
def noDescriptor : Value → Bool
  | .arr elems => noDescriptorList elems
  | .obj fields => !hasKey fields "_path" && noDescriptorFields fields
  | _ => true

/-- `noDescriptor` on every element of a list. -/
def noDescriptorList : List Value → Bool
  | [] => true
  | e :: rest => noDescriptor e && noDescriptorList rest

/-- `noDescriptor` on every property value of a field list. -/
def noDescriptorFields : List (String × Value) → Bool
  | [] => true
  | (_, v) :: rest => noDescriptor v && noDescriptorFields rest

end

/-- Whether the character list `needle` occurs contiguously inside `hay`. -/
def hasSubList (needle : List Char) : List Char → Bool
  | [] => needle.isEmpty
  | c :: rest => needle.isPrefixOf (c :: rest) || hasSubList needle rest

/-- Whether `needle` occurs as a substring of `hay`. -/
def containsStr (hay needle : String) : Bool :=
  hasSubList needle.toList hay.toList

theorem hasSubList_append_self (as bs : List Char) :
    hasSubList bs (as ++ bs) = true := by
  induction as with
  | nil =>
    cases bs with
    | nil => rfl
    | cons c t => simp [hasSubList, List.isPrefixOf_iff_prefix]
  | cons a as ih => simp [hasSubList, ih]

/-- A string always contains its own suffix. -/
theorem containsStr_append (a b : String) : containsStr (a ++ b) b = true := by
  have : (a ++ b).toList = a.toList ++ b.toList := by
    simp [String.toList]
  rw [containsStr, this]
  exact hasSubList_append_self a.toList b.toList

theorem getField_eq_undef_of_not_hasKey {fields : List (String × Value)}
    {k : String} (h : hasKey fields k = false) : getField fields k = .vUndefined := by
  induction fields with
  | nil => rfl
  | cons p rest ih =>
    obtain ⟨k', v⟩ := p
    simp only [hasKey, List.any_cons, Bool.or_eq_false_iff] at h
    obtain ⟨h1, h2⟩ := h
    have hk : k' ≠ k := by
      intro he
      rw [he] at h1
      simp at h1
    rw [getField, if_neg hk]
    exact ih h2

/-- `hydrate` on an array is `hydrateList` under `.arr`. -/
theorem hydrate_arr (env : Env) (ctx : Value) (elems : List Value) :
    hydrate env ctx (.arr elems)
      = match hydrateList env ctx elems with
        | .ok rs => .ok (.arr rs)
        | .error e => .error e := by
  rw [hydrate]

/-- `hydrate` on an object branches on the truthiness of its `_path`
property. -/
theorem hydrate_obj (env : Env) (ctx : Value) (fields : List (String × Value)) :
    hydrate env ctx (.obj fields)
      = if isDescriptorObj fields then execFields env ctx fields
        else
          match hydrateFields env ctx fields with
          | .ok fs => .ok (.obj fs)
          | .error e => .error e := by
  rw [hydrate]

/-- Integer square root (agreeing with `Math.sqrt` on perfect squares),
computed as the greatest `k ≤ n` with `k * k ≤ n`. -/
def jsSqrt (n : Int) : Int :=
  Int.ofNat (Nat.findGreatest (fun k => k * k ≤ n.toNat) n.toNat)

/-- Concrete demonstration environment: `base 0` is an integer square root,
`base 1` a binary max, `base 2` a doubling function, `base 3` a class `Box`
whose instances are `{v: arg}` objects.  (`callMethod` ids never reach the
environment: the resolver's plain call of a detached
`Function.prototype.call` throws before any environment function runs.) -/
def demoApply : FuncId → List Value → Value
  | .base 0, [.vNum n] => .vNum (jsSqrt n)
  | .base 1, [.vNum a, .vNum b] => .vNum (max a b)
  | .base 2, [.vNum n] => .vNum (2 * n)
  | _, _ => .vNull

/-- Construction semantics of the demonstration environment: only the class
`base 3` (`Box`) constructs meaningfully. -/
def demoConstruct : FuncId → List Value → Value
  | .base 3, [v] => .obj [("v", v)]
  | _, _ => .vNull

def demoEnv : Env := ⟨demoApply, demoConstruct⟩

/-- Demonstration capability tree
`{sqrt, max, double, Box, PI: 3}` with `Box` a class. -/
def demoCtx : Value :=
  .obj [("sqrt", .func (.base 0) false),
        ("max", .func (.base 1) false),
        ("double", .func (.base 2) false),
        ("Box", .func (.base 3) true),
        ("PI", .vNum 3)]

/-- Joining a path of strings is plain intercalation. -/
theorem jsJoinDot_map_vStr (p : List String) :
    jsJoinDot (p.map Value.vStr) = String.intercalate "." p := by
  simp [jsJoinDot, List.map_map, Function.comp_def, joinStr]

theorem truthy_vUndefined : truthy .vUndefined = false := rfl

theorem truthy_arr (l : List Value) : truthy (.arr l) = true := rfl

/-- The three hydration functions are the identity on descriptor-free data
(proved together by strong induction on size). -/
theorem hydrate_noDescriptor_bound (env : Env) (ctx : Value) :
    ∀ n : Nat,
      (∀ v : Value, sizeOf v ≤ n → noDescriptor v = true →
        hydrate env ctx v = .ok v) ∧
      (∀ l : List Value, sizeOf l ≤ n → noDescriptorList l = true →
        hydrateList env ctx l = .ok l) ∧
      (∀ l : List (String × Value), sizeOf l ≤ n → noDescriptorFields l = true →
        hydrateFields env ctx l = .ok l) := by
  intro n
  induction n using Nat.strong_induction_on with
  | _ n ih =>
    refine ⟨?_, ?_, ?_⟩
    · intro v hv h
      cases v with
      | arr elems =>
        have hs : sizeOf elems < n := by simp at hv; omega
        have h' : noDescriptorList elems = true := by
          simpa [noDescriptor] using h
        simp [hydrate, (ih _ hs).2.1 elems le_rfl h']
      | obj fields =>
        have hs : sizeOf fields < n := by simp at hv; omega
        have h' : hasKey fields "_path" = false ∧
            noDescriptorFields fields = true := by
          simpa [noDescriptor, Bool.and_eq_true] using h
        have hd : isDescriptorObj fields = false := by
          simp [isDescriptorObj, getField_eq_undef_of_not_hasKey h'.1, truthy]
        simp [hydrate, hd, (ih _ hs).2.2 fields le_rfl h'.2]
      | vUndefined => simp [hydrate]
      | vNull => simp [hydrate]
      | vBool b => simp [hydrate]
      | vNum m => simp [hydrate]
      | vStr str => simp [hydrate]
      | func fid c => simp [hydrate]
    · intro l hl h
      cases l with
      | nil => simp [hydrateList]
      | cons e rest =>
        have hse : sizeOf e < n := by simp at hl; omega
        have hsr : sizeOf rest < n := by simp at hl; omega
        have h' : noDescriptor e = true ∧ noDescriptorList rest = true := by
          simpa [noDescriptorList, Bool.and_eq_true] using h
        simp [hydrateList, (ih _ hse).1 e le_rfl h'.1,
              (ih _ hsr).2.1 rest le_rfl h'.2]
    · intro l hl h
      cases l with
      | nil => simp [hydrateFields]
      | cons p rest =>
        obtain ⟨k, v⟩ := p
        have hsv : sizeOf v < n := by simp at hl; omega
        have hsr : sizeOf rest < n := by simp at hl; omega
        have h' : noDescriptor v = true ∧ noDescriptorFields rest = true := by
          simpa [noDescriptorFields, Bool.and_eq_true] using h
        simp [hydrateFields, (ih _ hsv).1 v le_rfl h'.1,
              (ih _ hsr).2.2 rest le_rfl h'.2]

/-- C1: for every capability tree, every path reaching a plain
(non-constructor) callable of the tree (a `base` capability function — the
detached prototype `call` method is the `callMethod` case, whose invocation
throws, see C10), and every argument list, resolving the descriptor
`{path, args}` invokes the callable at that path with the hydrated
arguments (nested descriptors inside the arguments are resolved to their
own results by `hydrateList` first) and returns the call's result. -/
theorem c1_plain_call_resolution (env : Env) (ctx : Value) (p : List String)
    (n : Nat) (A hA : List Value)
    (hres : walkPath ctx (p.map Value.vStr) = .func (.base n) false)
    (hargs : hydrateList env ctx A = .ok hA) :
    executeDehydrated env ctx
        (.obj [("_path", .arr (p.map Value.vStr)), ("_args", .arr A)])
      = .ok (env.applyF (.base n) hA) := by
  show execFields env ctx _ = _
  simp [execFields, getField, truthy_arr, truthy_vUndefined, hres, hydrate_arr,
        hargs, callWalked]

/-- C1 witness: `{path:["max"], args:[{path:["sqrt"],args:[16]}, 3]}`
against `{sqrt, max}` yields `max(sqrt(16), 3) = 4`. -/
theorem c1_witness :
    hydrateList demoEnv demoCtx
        [.obj [("_path", .arr [.vStr "sqrt"]), ("_args", .arr [.vNum 16])],
         .vNum 3]
      = .ok [.vNum 4, .vNum 3] ∧
    executeDehydrated demoEnv demoCtx
        (.obj [("_path", .arr [.vStr "max"]),
               ("_args", .arr
                 [.obj [("_path", .arr [.vStr "sqrt"]), ("_args", .arr [.vNum 16])],
                  .vNum 3])])
      = .ok (.vNum 4) := by
  have hl : hydrateList demoEnv demoCtx
      [.obj [("_path", .arr [.vStr "sqrt"]), ("_args", .arr [.vNum 16])],
       .vNum 3] = .ok [.vNum 4, .vNum 3] := by
    simp [hydrate, hydrateList, execFields, getField, truthy, walkPath, getProp,
          propKey, demoEnv, demoApply, demoCtx, isDescriptorObj, callWalked]
    decide
  refine ⟨hl, ?_⟩
  have h := c1_plain_call_resolution demoEnv demoCtx ["max"] 1
      [.obj [("_path", .arr [.vStr "sqrt"]), ("_args", .arr [.vNum 16])],
       .vNum 3]
      [.vNum 4, .vNum 3] rfl hl
  exact h.trans rfl

/-- C2: a payload with no embedded Call Descriptor hydrates, against any
capability tree, to a structurally equal value: arrays keep length and
order, objects keep all keys, primitives (including null) are unchanged. -/
theorem c2_round_trip (env : Env) (ctx : Value) (v : Value)
    (h : noDescriptor v = true) : hydrate env ctx v = .ok v :=
  (hydrate_noDescriptor_bound env ctx (sizeOf v)).1 v le_rfl h

/-- C2 witness: a concrete descriptor-free payload mixing an object, an
array, a string, null and a boolean round-trips unchanged. -/
theorem c2_witness :
    noDescriptor (Value.obj [("a", .vNum 1),
        ("b", .arr [.vStr "x", .vNull, .obj [("c", .vBool true)]])]) = true ∧
    hydrate demoEnv demoCtx
        (Value.obj [("a", .vNum 1),
          ("b", .arr [.vStr "x", .vNull, .obj [("c", .vBool true)]])])
      = .ok (Value.obj [("a", .vNum 1),
          ("b", .arr [.vStr "x", .vNull, .obj [("c", .vBool true)]])]) := by
  have hn : noDescriptor (Value.obj [("a", .vNum 1),
      ("b", .arr [.vStr "x", .vNull, .obj [("c", .vBool true)]])]) = true := by
    simp [noDescriptor, noDescriptorList, noDescriptorFields, hasKey]
  exact ⟨hn, c2_round_trip demoEnv demoCtx _ hn⟩

/-- C3: a descriptor whose path walk does not end at a function (missing or
undefined intermediate steps propagate `undefined`) fails with the
unresolved-path error, whose message contains the full dotted path. -/
theorem c3_unresolved_path (env : Env) (ctx : Value)
    (fields : List (String × Value)) (p : List String)
    (hpath : getField fields "_path" = .arr (p.map Value.vStr))
    (hnf : isFunc (walkPath ctx (p.map Value.vStr)) = false) :
    executeDehydrated env ctx (.obj fields)
      = .error (unresolvedPathMsg (String.intercalate "." p)) ∧
    containsStr (unresolvedPathMsg (String.intercalate "." p))
      (String.intercalate "." p) = true := by
  refine ⟨?_, containsStr_append _ _⟩
  show execFields env ctx fields = _
  simp only [execFields, hpath]
  cases hw : walkPath ctx (List.map Value.vStr p) with
  | func fid c => rw [hw] at hnf; simp [isFunc] at hnf
  | vUndefined => simp [jsJoinDot_map_vStr]
  | vNull => simp [jsJoinDot_map_vStr]
  | vBool b => simp [jsJoinDot_map_vStr]
  | vNum n => simp [jsJoinDot_map_vStr]
  | vStr s => simp [jsJoinDot_map_vStr]
  | arr l => simp [jsJoinDot_map_vStr]
  | obj fs => simp [jsJoinDot_map_vStr]

/-- C3 witness: `{path:["Missing","fn"]}` against the empty tree fails with
the unresolved-path error mentioning "Missing.fn". -/
theorem c3_witness :
    executeDehydrated demoEnv (Value.obj [])
        (.obj [("_path", .arr [.vStr "Missing", .vStr "fn"])])
      = .error (unresolvedPathMsg (String.intercalate "." ["Missing", "fn"])) ∧
    containsStr (unresolvedPathMsg (String.intercalate "." ["Missing", "fn"]))
      (String.intercalate "." ["Missing", "fn"]) = true :=
  c3_unresolved_path demoEnv (Value.obj [])
    [("_path", .arr [.vStr "Missing", .vStr "fn"])] ["Missing", "fn"] rfl rfl

/-- C4 counterexample: resolving the class `Box` with arguments but without
`isConstructor: true` does fail, but with the engine's TypeError for calling
a class without `new`, not with the library's invocation-mode error (which
the capturer raises at capture time). -/
theorem c4_counterexample :
    executeDehydrated demoEnv demoCtx
        (.obj [("_path", .arr [.vStr "Box"]), ("_args", .arr [.vNum 5])])
      = .error classCallTypeErrorMsg ∧
    classCallTypeErrorMsg ≠ invocationModeMsg := by
  constructor
  · simp [executeDehydrated, execFields, getField, truthy, walkPath, getProp,
          propKey, hydrate, hydrateList, demoEnv, demoCtx, isDescriptorObj,
          callWalked]
  · decide

/-- C4 amended: resolving a constructor-style callable with arguments and
without `isConstructor: true` fails with the engine's class-call TypeError
(not the library's `InvocationModeError`); with `isConstructor: true` it
constructs with the hydrated arguments, returning exactly the direct
construction on those arguments. -/
theorem c4_amended_constructor_mode (env : Env) (ctx : Value)
    (fields : List (String × Value)) (keys : List Value) (fid : FuncId)
    (A hA : List Value)
    (hpath : getField fields "_path" = .arr keys)
    (hfun : walkPath ctx keys = .func fid true)
    (hargsf : getField fields "_args" = .arr A)
    (hhyd : hydrateList env ctx A = .ok hA) :
    (truthy (getField fields "_class") = false →
      executeDehydrated env ctx (.obj fields) = .error classCallTypeErrorMsg) ∧
    (truthy (getField fields "_class") = true →
      executeDehydrated env ctx (.obj fields) = .ok (env.constructF fid hA)) := by
  constructor <;> intro hc <;>
  · show execFields env ctx fields = _
    simp [execFields, hpath, hfun, hargsf, hc, truthy_arr, hydrate_arr, hhyd]

/-- C4 witness: with `isConstructor: true`, `Box(7)` constructs the instance
`{v: 7}`; without it, the class-call TypeError is raised. -/
theorem c4_witness :
    executeDehydrated demoEnv demoCtx
        (.obj [("_path", .arr [.vStr "Box"]), ("_args", .arr [.vNum 7]),
               ("_class", .vBool true)])
      = .ok (.obj [("v", .vNum 7)]) ∧
    executeDehydrated demoEnv demoCtx
        (.obj [("_path", .arr [.vStr "Box"]), ("_args", .arr [.vNum 7])])
      = .error classCallTypeErrorMsg := by
  have hhyd : hydrateList demoEnv demoCtx [.vNum 7] = .ok [.vNum 7] := by
    simp [hydrateList, hydrate]
  have h1 := c4_amended_constructor_mode demoEnv demoCtx
      [("_path", .arr [.vStr "Box"]), ("_args", .arr [.vNum 7]),
       ("_class", .vBool true)]
      [.vStr "Box"] (.base 3) [.vNum 7] [.vNum 7] rfl rfl rfl hhyd
  have h2 := c4_amended_constructor_mode demoEnv demoCtx
      [("_path", .arr [.vStr "Box"]), ("_args", .arr [.vNum 7])]
      [.vStr "Box"] (.base 3) [.vNum 7] [.vNum 7] rfl rfl rfl hhyd
  exact ⟨(h1.2 rfl).trans rfl, h2.1 rfl⟩

/-- C5 counterexample: the object `{_path: 0}` possesses a `_path` field but
is not delegated to the Invocation Resolver; the source tests the field's
truthiness, so this object is hydrated as a plain composite. -/
theorem c5_counterexample :
    hasKey [("_path", Value.vNum 0)] "_path" = true ∧
    isDescriptorObj [("_path", Value.vNum 0)] = false ∧
    hydrate demoEnv demoCtx (.obj [("_path", .vNum 0)])
      = .ok (.obj [("_path", .vNum 0)]) := by
  refine ⟨by decide, by decide, ?_⟩
  simp [hydrate, hydrateFields, isDescriptorObj, getField, truthy]

/-- C5 amended: recognition tests the truthiness of the `_path` field, not
its mere possession: an object is delegated to the Invocation Resolver
exactly when its `_path` field is truthy (a present but falsy `_path` —
`0`, `""`, `false`, `null` — is hydrated as a plain composite), and no
field other than `_path` influences the decision. -/
theorem c5_amended_truthy_discriminator (env : Env) (ctx : Value)
    (fields : List (String × Value)) :
    (isDescriptorObj fields = true →
      hydrate env ctx (.obj fields) = execFields env ctx fields) ∧
    (isDescriptorObj fields = false →
      hydrate env ctx (.obj fields)
        = match hydrateFields env ctx fields with
          | .ok fs => .ok (.obj fs)
          | .error e => .error e) ∧
    (∀ (k : String) (w : Value), k ≠ "_path" →
      isDescriptorObj ((k, w) :: fields) = isDescriptorObj fields) := by
  refine ⟨?_, ?_, ?_⟩
  · intro hd; rw [hydrate_obj, hd]; simp
  · intro hd; rw [hydrate_obj, hd]; simp
  · intro k w hk; simp [isDescriptorObj, getField, hk]

/-- C5 witness: an object with a truthy `_path` is delegated (whatever other
fields it has), and a non-`_path` field does not change the decision. -/
theorem c5_witness :
    hydrate demoEnv demoCtx (.obj [("x", .vNull), ("_path", .arr [.vStr "sqrt"])])
      = execFields demoEnv demoCtx [("x", .vNull), ("_path", .arr [.vStr "sqrt"])] ∧
    isDescriptorObj [("x", .vNull), ("_path", .arr [.vStr "sqrt"])]
      = isDescriptorObj [("_path", .arr [.vStr "sqrt"])] := by
  have h1 := c5_amended_truthy_discriminator demoEnv demoCtx
      [("x", .vNull), ("_path", .arr [.vStr "sqrt"])]
  have h2 := c5_amended_truthy_discriminator demoEnv demoCtx
      [("_path", .arr [.vStr "sqrt"])]
  exact ⟨h1.1 rfl, h2.2.2 "x" .vNull (by decide)⟩

/-- C6: a descriptor whose path resolves to a callable and whose `_args`
field is absent resolves, without any invocation, to the very value that
direct navigation of the path yields (in this extensional model, identity of
callables is identity of their `FuncId`). -/
theorem c6_reference_identity (env : Env) (ctx : Value)
    (fields : List (String × Value)) (keys : List Value) (fid : FuncId)
    (c : Bool)
    (hpath : getField fields "_path" = .arr keys)
    (hfun : walkPath ctx keys = .func fid c)
    (hargs : getField fields "_args" = .vUndefined) :
    executeDehydrated env ctx (.obj fields) = .ok (walkPath ctx keys) := by
  show execFields env ctx fields = _
  simp [execFields, hpath, hfun, hargs, truthy_vUndefined]

/-- C6 witness: `{_path:["sqrt"]}` resolves to the callable that navigating
`sqrt` in the tree yields. -/
theorem c6_witness :
    executeDehydrated demoEnv demoCtx (.obj [("_path", .arr [.vStr "sqrt"])])
      = .ok (walkPath demoCtx [.vStr "sqrt"]) ∧
    walkPath demoCtx [.vStr "sqrt"] = .func (.base 0) false :=
  ⟨c6_reference_identity demoEnv demoCtx [("_path", .arr [.vStr "sqrt"])]
      [.vStr "sqrt"] (.base 0) false rfl rfl rfl, rfl⟩

/-- C7: a descriptor with arguments and `isConstructor: true` fails with the
not-a-class error (whose message names the dotted path) when the resolved
target is not constructor-style, and constructs with the hydrated arguments
when it is. -/
theorem c7_class_flag (env : Env) (ctx : Value) (fields : List (String × Value))
    (keys : List Value) (fid : FuncId) (isCls : Bool) (A hA : List Value)
    (hpath : getField fields "_path" = .arr keys)
    (hfun : walkPath ctx keys = .func fid isCls)
    (hargsf : getField fields "_args" = .arr A)
    (hhyd : hydrateList env ctx A = .ok hA)
    (hclass : truthy (getField fields "_class") = true) :
    (isCls = false →
      executeDehydrated env ctx (.obj fields)
        = .error (notAClassMsg (jsJoinDot keys)) ∧
      containsStr (notAClassMsg (jsJoinDot keys)) (jsJoinDot keys) = true) ∧
    (isCls = true →
      executeDehydrated env ctx (.obj fields) = .ok (env.constructF fid hA)) := by
  constructor <;> intro hc
  · refine ⟨?_, containsStr_append _ _⟩
    show execFields env ctx fields = _
    subst hc
    simp [execFields, hpath, hfun, hargsf, hclass, truthy_arr, hydrate_arr, hhyd]
  · show execFields env ctx fields = _
    subst hc
    simp [execFields, hpath, hfun, hargsf, hclass, truthy_arr, hydrate_arr, hhyd]

/-- C7 witness: `{_path:["sqrt"], _args:[16], _class:true}` fails with the
not-a-class error naming "sqrt"; `{_path:["Box"], _args:[9], _class:true}`
constructs `{v: 9}`. -/
theorem c7_witness :
    executeDehydrated demoEnv demoCtx
        (.obj [("_path", .arr [.vStr "sqrt"]), ("_args", .arr [.vNum 16]),
               ("_class", .vBool true)])
      = .error (notAClassMsg (jsJoinDot [.vStr "sqrt"])) ∧
    executeDehydrated demoEnv demoCtx
        (.obj [("_path", .arr [.vStr "Box"]), ("_args", .arr [.vNum 9]),
               ("_class", .vBool true)])
      = .ok (.obj [("v", .vNum 9)]) := by
  have h1 := c7_class_flag demoEnv demoCtx
      [("_path", .arr [.vStr "sqrt"]), ("_args", .arr [.vNum 16]),
       ("_class", .vBool true)]
      [.vStr "sqrt"] (.base 0) false [.vNum 16] [.vNum 16] rfl rfl rfl
      (by simp [hydrateList, hydrate]) rfl
  have h2 := c7_class_flag demoEnv demoCtx
      [("_path", .arr [.vStr "Box"]), ("_args", .arr [.vNum 9]),
       ("_class", .vBool true)]
      [.vStr "Box"] (.base 3) true [.vNum 9] [.vNum 9] rfl rfl rfl
      (by simp [hydrateList, hydrate]) rfl
  exact ⟨(h1.1 rfl).1, (h2.2 rfl).trans rfl⟩

/-- C8 counterexample: the invocation-mode error (a captured class
instantiated without `new`, here at path `C.Box`) has a fixed message that
does not contain the involved dotted path. -/
theorem c8_counterexample :
    invokeCapturer ["C", "Box"] true false [] = .error invocationModeMsg ∧
    containsStr invocationModeMsg "C.Box" = false :=
  ⟨rfl, by decide⟩

/-- C8 amended: the path-error, unresolved-path and not-a-class messages all
contain the full dotted path; the invocation-mode message is a fixed string
that does not (e.g. it does not contain "C.Box"). -/
theorem c8_amended_messages (d : String) :
    containsStr (pathErrorMsg d) d = true ∧
    containsStr (unresolvedPathMsg d) d = true ∧
    containsStr (notAClassMsg d) d = true ∧
    containsStr invocationModeMsg "C.Box" = false :=
  ⟨containsStr_append _ d, containsStr_append _ d, containsStr_append _ d,
   by decide⟩

/-- C9: a descriptor with no `_args` whose `_class` flag is set to true
still resolves in reference mode: the flag is never consulted and the
resolved callable itself is returned, with no error. -/
theorem c9_reference_ignores_class_flag (env : Env) (ctx : Value)
    (fields : List (String × Value)) (keys : List Value) (fid : FuncId)
    (c : Bool)
    (hpath : getField fields "_path" = .arr keys)
    (hfun : walkPath ctx keys = .func fid c)
    (hargs : getField fields "_args" = .vUndefined)
    (_hclass : getField fields "_class" = .vBool true) :
    executeDehydrated env ctx (.obj fields) = .ok (.func fid c) := by
  show execFields env ctx fields = _
  simp [execFields, hpath, hfun, hargs, truthy_vUndefined]

/-- C9 witness: `{_path:["Box"], _class:true}` (no `_args`) resolves to the
class itself rather than failing. -/
theorem c9_witness :
    executeDehydrated demoEnv demoCtx
        (.obj [("_path", .arr [.vStr "Box"]), ("_class", .vBool true)])
      = .ok (.func (.base 3) true) :=
  c9_reference_ignores_class_flag demoEnv demoCtx
    [("_path", .arr [.vStr "Box"]), ("_class", .vBool true)]
    [.vStr "Box"] (.base 3) true rfl rfl rfl rfl

/-- C10 counterexample: on the tree containing the plain function `double`,
the descriptor `{path:["double","call"], args:[null,5]}` does resolve
through the inherited `call` method to a callable, but the walk detached
that method from its receiver, so the resolver's plain call runs
`Function.prototype.call` with `this = undefined` and throws the engine's
TypeError — the invocation never produces `double.call(null, 5) = 10`, and
the error is not the unresolved-path error either. -/
theorem c10_counterexample :
    walkPath demoCtx [.vStr "double", .vStr "call"]
      = .func (.callMethod (.base 2)) false ∧
    executeDehydrated demoEnv demoCtx
        (.obj [("_path", .arr [.vStr "double", .vStr "call"]),
               ("_args", .arr [.vNull, .vNum 5])])
      = .error callDetachedTypeErrorMsg ∧
    callDetachedTypeErrorMsg
      ≠ unresolvedPathMsg (jsJoinDot [.vStr "double", .vStr "call"]) := by
  refine ⟨rfl, ?_, by decide⟩
  simp [executeDehydrated, execFields, getField, truthy, walkPath, getProp,
        propKey, hydrate, hydrateList, demoEnv, demoCtx, isDescriptorObj,
        callWalked]

/-- C10 amended: the path walk is ordinary property access, so a step can
resolve through an inherited (prototype) property that is no own member of
any tree node: for a plain function reachable under `name`, the descriptor
`{path:[name,"call"], args:A}` resolves to the function's inherited `call`
method and proceeds to invoke it — it does not fail with the unresolved-path
error — but because the walk reads the method without binding its receiver,
the plain call runs `Function.prototype.call` with `this = undefined` and
throws the engine's TypeError instead of applying the function. -/
theorem c10_amended_detached_call (env : Env) (ctx : Value)
    (fields : List (String × Value)) (name : String) (fid : FuncId) (c : Bool)
    (A hA : List Value)
    (hstep : getProp ctx name = .func fid c)
    (hpath : getField fields "_path" = .arr [.vStr name, .vStr "call"])
    (hargsf : getField fields "_args" = .arr A)
    (hhyd : hydrateList env ctx A = .ok hA)
    (hclassf : truthy (getField fields "_class") = false) :
    walkPath ctx [.vStr name, .vStr "call"] = .func (.callMethod fid) false ∧
    executeDehydrated env ctx (.obj fields)
      = .error callDetachedTypeErrorMsg := by
  have hw : walkPath ctx [.vStr name, .vStr "call"]
      = .func (.callMethod fid) false := by
    have h1 : walkPath ctx [.vStr name, .vStr "call"]
        = getProp (getProp ctx name) "call" := by
      simp [walkPath, propKey]
    rw [h1, hstep]
    simp [getProp]
  refine ⟨hw, ?_⟩
  show execFields env ctx fields = _
  simp [execFields, hpath, hw, hargsf, hclassf, truthy_arr, hydrate_arr, hhyd,
        callWalked]

/-- C10 witness: `{path:["sqrt","call"], args:[null,9]}` resolves through
the inherited `call` method (no unresolved-path error) and the detached
invocation throws the modelled engine TypeError. -/
theorem c10_witness :
    walkPath demoCtx [.vStr "sqrt", .vStr "call"]
      = .func (.callMethod (.base 0)) false ∧
    executeDehydrated demoEnv demoCtx
        (.obj [("_path", .arr [.vStr "sqrt", .vStr "call"]),
               ("_args", .arr [.vNull, .vNum 9])])
      = .error callDetachedTypeErrorMsg :=
  c10_amended_detached_call demoEnv demoCtx
    [("_path", .arr [.vStr "sqrt", .vStr "call"]),
     ("_args", .arr [.vNull, .vNum 9])]
    "sqrt" (.base 0) false [.vNull, .vNum 9] [.vNull, .vNum 9]
    rfl rfl rfl (by simp [hydrateList, hydrate]) rfl

end DehydrateCalls
